import Mathlib

/-!
Shallow embedding of src/src/main.c (Meshtastic Watcher, supervisor-safe
MSP430 variant) and proofs about its UVLO gate, tick scheduler, button
handler, pulse driver and ADC scaling.

Machine model: on MSP430, unsigned int is 16 bits and unsigned long is
32 bits; increments of those variables are taken modulo 2^16 and 2^32.
Each interrupt service routine runs atomically with respect to the main
loop, so an ISR body is modelled as a function on the global state that
also returns the list of pulse widths passed to od_press_ms during that
ISR execution.
-/

/- Build-time configuration constants from main.c (USE_VLO = 1 branch). -/

def TOGGLE_TICKS : Nat := 115200

def PULSE_MS : Nat := 120

def DEBOUNCE_TICKS : Nat := 1

def STARTUP_INHIBIT_TICKS : Nat := 10

def UVLO_RISE_MV : Nat := 3000

def UVLO_FALL_MV : Nat := 2900

def UVLO_CONFIRM_SAMPLES : Nat := 3

def UVLO_CHECK_EVERY_TICKS : Nat := 8

/-- Modulus of the C type unsigned int on MSP430 (16 bits). -/
def UINT_MOD : Nat := 65536

/-- Modulus of the C type unsigned long on MSP430 (32 bits). -/
def ULONG_MOD : Nat := 4294967296

/- ============ Pulse driver: port-1 registers and od functions ============ -/

/-- P1.0, the open-drain style output pin (BIT0). -/
def OUTPUT_PIN_BIT : Nat := 1

/-- The two port-1 registers touched by the pulse driver.  Each holds an
8-bit value. -/
structure Port1 where
  p1out : Nat
  p1dir : Nat
deriving DecidableEq

/-- od_idle from main.c: clear the output bit of P1OUT and of P1DIR
(output becomes an input, i.e. Hi-Z).  The C mask is the complement of
OUTPUT_PIN_BIT restricted to the 8-bit register, i.e. 254. -/
def od_idle (p : Port1) : Port1 :=
  { p1out := p.p1out &&& 254
    p1dir := p.p1dir &&& 254 }

/-- od_press_ms from main.c: drive the output low (clear the P1OUT bit,
set the P1DIR bit), busy-wait for ms milliseconds, then clear the P1DIR
bit again (back to Hi-Z).  The busy wait does not touch the registers, so
the function is modelled by its overall register effect. -/
def od_press_ms (ms : Nat) (p : Port1) : Port1 :=
  let afterDrive : Port1 :=
    { p1out := p.p1out &&& 254
      p1dir := p.p1dir ||| OUTPUT_PIN_BIT }
  { afterDrive with p1dir := afterDrive.p1dir &&& 254 }

/- ============ Global firmware state ============ -/

/-- The global mutable variables of main.c, plus the static local
ok_count of uvlo_periodic_check. -/
structure St where
  wdt_ticks : Nat
  ticks_since_last_uvlo_check : Nat
  debounce_ticks : Nat
  inhibit_ticks : Nat
  uvlo_active : Bool
  do_uvlo_check : Bool
  ok_count : Nat
deriving DecidableEq

/- ============ ADC ============ -/

/-- read_vcc_mV from main.c: mv = (unsigned long)ADC10MEM * 5000UL, then
return (unsigned int)(mv / 1023UL).  The ADC register value is the 10-bit
conversion result. -/
def read_vcc_mV (adc : Nat) : Nat :=
  ((adc * 5000) % ULONG_MOD / 1023) % UINT_MOD

/- ============ UVLO gate ============ -/

/-- Increment of a 16-bit unsigned counter. -/
def okBump (c : Nat) : Nat := (c + 1) % UINT_MOD

/-- uvlo_periodic_check from main.c, with the sampled millivolt value of
read_vcc_mV passed in as mv.  While blocked, a sample at or above the
rise threshold bumps the confirmation counter and, on reaching
UVLO_CONFIRM_SAMPLES, clears uvlo_active, resets the counter and loads
the startup inhibit window; a sub-threshold sample clears the counter.
While allowed, a sample below the fall threshold re-enters UVLO. -/
def uvlo_periodic_check (mv : Nat) (s : St) : St :=
  if s.uvlo_active then
    if UVLO_RISE_MV ≤ mv then
      if UVLO_CONFIRM_SAMPLES ≤ okBump s.ok_count then
        { s with uvlo_active := false
                 ok_count := 0
                 inhibit_ticks := STARTUP_INHIBIT_TICKS }
      else
        { s with ok_count := okBump s.ok_count }
    else
      { s with ok_count := 0 }
  else
    if mv < UVLO_FALL_MV then { s with uvlo_active := true } else s

/-- The main-loop handling of a pending UVLO check: if do_uvlo_check is
set, clear it and run uvlo_periodic_check on a fresh sample. -/
def mainCheck (mv : Nat) (s : St) : St :=
  if s.do_uvlo_check then uvlo_periodic_check mv { s with do_uvlo_check := false }
  else s

/- ============ ISRs ============ -/

/-- First phase of WDT_ISR: saturating decrement of debounce_ticks and
inhibit_ticks. -/
def wdtDec (s : St) : St :=
  { s with
      debounce_ticks :=
        if 0 < s.debounce_ticks then s.debounce_ticks - 1 else s.debounce_ticks
      inhibit_ticks :=
        if 0 < s.inhibit_ticks then s.inhibit_ticks - 1 else s.inhibit_ticks }

/-- Second phase of WDT_ISR: bump ticks_since_last_uvlo_check and, on
reaching the check cadence, reset it and request a UVLO check. -/
def wdtCad (s : St) : St :=
  let t := (s.ticks_since_last_uvlo_check + 1) % ULONG_MOD
  if UVLO_CHECK_EVERY_TICKS ≤ t then
    { s with ticks_since_last_uvlo_check := 0, do_uvlo_check := true }
  else
    { s with ticks_since_last_uvlo_check := t }

/-- Third phase of WDT_ISR: the auto-press logic.  Only when uvlo_active
is false and inhibit_ticks is zero, bump wdt_ticks; on reaching
TOGGLE_TICKS, reset it and call od_press_ms PULSE_MS.  Returns the new
state and the widths of the pulses emitted. -/
def wdtAuto (s : St) : St × List Nat :=
  if s.uvlo_active = false ∧ s.inhibit_ticks = 0 then
    let w := (s.wdt_ticks + 1) % ULONG_MOD
    if TOGGLE_TICKS ≤ w then ({ s with wdt_ticks := 0 }, [PULSE_MS])
    else ({ s with wdt_ticks := w }, [])
  else (s, [])

/-- WDT_ISR from main.c, as an atomic step: decrements, cadence update,
then the auto-press block.  The LPM wake-up request has no effect on the
modelled state. -/
def WDT_ISR (s : St) : St × List Nat := wdtAuto (wdtCad (wdtDec s))

/-- PORT1_ISR from main.c, as an atomic step; edge is the P1IFG bit of
the button pin at entry (cleared by the ISR, so not part of the state).
When the debounce counter is zero the edge is acted on: if uvlo_active is
false and inhibit_ticks is zero, od_press_ms PULSE_MS is called and
wdt_ticks is cleared; in either case debounce_ticks is reloaded. -/
def PORT1_ISR (edge : Bool) (s : St) : St × List Nat :=
  if edge then
    if s.debounce_ticks = 0 then
      if s.uvlo_active = false ∧ s.inhibit_ticks = 0 then
        ({ s with wdt_ticks := 0, debounce_ticks := DEBOUNCE_TICKS }, [PULSE_MS])
      else
        ({ s with debounce_ticks := DEBOUNCE_TICKS }, [])
    else (s, [])
  else (s, [])

/- ============ Boot and reachability ============ -/

/-- State right after main passes wait_for_power_good: uvlo_active was
set false and inhibit_ticks loaded with the startup window; every other
variable still has its zero initial value. -/
def postBoot : St :=
  ⟨0, 0, 0, STARTUP_INHIBIT_TICKS, false, false, 0⟩

/-- States reachable from the post-boot state under any interleaving of
WDT interrupts, button edges, and main-loop UVLO check handling (with an
arbitrary voltage sample at each check). -/
inductive Reachable : St → Prop where
  | boot : Reachable postBoot
  | wdt {s : St} : Reachable s → Reachable (WDT_ISR s).1
  | button {s : St} : Reachable s → Reachable (PORT1_ISR true s).1
  | check (mv : Nat) {s : St} : Reachable s → Reachable (mainCheck mv s)

/-- n consecutive WDT interrupts. -/
def stepN : Nat → St → St
  | 0, s => s
  | n + 1, s => (WDT_ISR (stepN n s)).1

/- ============ wait_for_power_good ============ -/

/-- The body of wait_for_power_good from main.c run for a bounded number
of loop iterations: f is the stream of read_vcc_mV results, i the index
of the next sample, c the local ok_count.  Returns true when the break
on UVLO_CONFIRM_SAMPLES consecutive confirmations is reached within the
given number of iterations. -/
def wfpgRun (f : Nat → Nat) : Nat → Nat → Nat → Bool
  | 0, _, _ => false
  | n + 1, i, c =>
    if UVLO_RISE_MV ≤ f i then
      if UVLO_CONFIRM_SAMPLES ≤ okBump c then true
      else wfpgRun f n (i + 1) (okBump c)
    else wfpgRun f n (i + 1) 0

/-- wait_for_power_good terminates on the sample stream f: some finite
number of loop iterations reaches the break. -/
def wfpg_terminates (f : Nat → Nat) : Prop :=
  ∃ n, wfpgRun f n 0 0 = true

/- ============ Specification-side sample-sequence predicates ============ -/

/-- A sample meets the rise threshold. -/
def goodSample (mv : Nat) : Bool := UVLO_RISE_MV ≤ mv

/-- The first n samples of the list all meet the rise threshold (and the
list has at least n samples). -/
def goodTake : Nat → List Nat → Bool
  | 0, _ => true
  | _ + 1, [] => false
  | n + 1, mv :: t => goodSample mv && goodTake n t

/-- Modelled from the spec: the list contains UVLO_CONFIRM_SAMPLES
consecutive samples at or above the rise threshold, i.e. some suffix of
the list starts with UVLO_CONFIRM_SAMPLES good samples.  This is the
specification-side description of the confirmation condition, to be
compared with the counter-based code. -/
def hasConfirmRun : List Nat → Bool
  | [] => false
  | mv :: t => goodTake UVLO_CONFIRM_SAMPLES (mv :: t) || hasConfirmRun t

/-- The confirmation-counter loop shared by wait_for_power_good and the
blocked branch of uvlo_periodic_check, run over a list of samples with
starting counter c: true when the break condition (counter reaching
UVLO_CONFIRM_SAMPLES) is hit. -/
def runB : Nat → List Nat → Bool
  | _, [] => false
  | c, mv :: t =>
    if UVLO_RISE_MV ≤ mv then
      if UVLO_CONFIRM_SAMPLES ≤ okBump c then true
      else runB (okBump c) t
    else runB 0 t

/-- The samples f i, f (i+1), ..., f (i+n-1) as a list. -/
def sampleList (f : Nat → Nat) : Nat → Nat → List Nat
  | _, 0 => []
  | i, n + 1 => f i :: sampleList f (i + 1) n

/-- Folding uvlo_periodic_check over a list of samples. -/
def uvloFold (l : List Nat) (s : St) : St :=
  l.foldl (fun a mv => uvlo_periodic_check mv a) s

/- ============ Claim C9 ============ -/

/-- Claim C9: for every 10-bit conversion result adc in 0..1023,
read_vcc_mV returns the integer millivolt estimate adc * 5000 / 1023,
the result is at most 5000, and the intermediate product adc * 5000
stays below the unsigned long modulus (no overflow). -/
theorem claim_C9 (adc : Nat) (h : adc ≤ 1023) :
    read_vcc_mV adc = adc * 5000 / 1023 ∧ read_vcc_mV adc ≤ 5000 ∧
      adc * 5000 < ULONG_MOD := by
  have hm : adc * 5000 ≤ 5115000 := by
    calc adc * 5000 ≤ 1023 * 5000 := Nat.mul_le_mul_right _ h
    _ = 5115000 := by norm_num
  have h1 : adc * 5000 < ULONG_MOD := by unfold ULONG_MOD; omega
  have h2 : (adc * 5000) % ULONG_MOD = adc * 5000 := Nat.mod_eq_of_lt h1
  have hd : adc * 5000 / 1023 ≤ 5000 := by
    have h5 := Nat.div_le_div_right (c := 1023) hm
    simpa using h5
  have h3 : adc * 5000 / 1023 % UINT_MOD = adc * 5000 / 1023 := by
    apply Nat.mod_eq_of_lt; unfold UINT_MOD; omega
  refine ⟨?_, ?_, h1⟩
  · unfold read_vcc_mV; rw [h2, h3]
  · unfold read_vcc_mV; rw [h2, h3]; exact hd

theorem claim_C9_witness :
    read_vcc_mV 1023 = 1023 * 5000 / 1023 ∧ read_vcc_mV 1023 ≤ 5000 ∧
      1023 * 5000 < ULONG_MOD :=
  claim_C9 1023 (by decide)

/- ============ Claim C10 ============ -/

/-- Claim C10: od_idle and od_press_ms change only bit 0 (OUTPUT_PIN_BIT,
P1.0) of P1OUT and P1DIR: every other port-1 bit of both registers,
including the button configuration bits on P1.3, is unchanged, and
od_press_ms always returns with the P1DIR output bit cleared, leaving the
pin in the high-impedance input direction.  The 8-bit registers are
assumed in range. -/
theorem claim_C10 (p : Port1) (ms : Nat) (hout : p.p1out < 256)
    (hdir : p.p1dir < 256) :
    (∀ i, i ≠ 0 →
      (od_idle p).p1out.testBit i = p.p1out.testBit i ∧
      (od_idle p).p1dir.testBit i = p.p1dir.testBit i ∧
      (od_press_ms ms p).p1out.testBit i = p.p1out.testBit i ∧
      (od_press_ms ms p).p1dir.testBit i = p.p1dir.testBit i) ∧
    (od_press_ms ms p).p1dir.testBit 0 = false := by
  have h2540 : Nat.testBit 254 0 = false := by decide
  constructor
  · intro i hi
    rcases lt_or_ge i 8 with h8 | h8
    · have h254 : Nat.testBit 254 i = true := by
        interval_cases i <;> first | exact absurd rfl hi | decide
      have h1b : Nat.testBit 1 i = false := by
        interval_cases i <;> first | exact absurd rfl hi | decide
      refine ⟨?_, ?_, ?_, ?_⟩ <;>
        simp [od_idle, od_press_ms, OUTPUT_PIN_BIT, Nat.testBit_land,
          Nat.testBit_lor, h254, h1b]
    · have hpow : (256 : Nat) ≤ 2 ^ i := by
        calc (256 : Nat) = 2 ^ 8 := by norm_num
        _ ≤ 2 ^ i := Nat.pow_le_pow_right (by norm_num) h8
      have hOut : p.p1out.testBit i = false :=
        Nat.testBit_lt_two_pow (lt_of_lt_of_le hout hpow)
      have hDir : p.p1dir.testBit i = false :=
        Nat.testBit_lt_two_pow (lt_of_lt_of_le hdir hpow)
      have h254 : Nat.testBit 254 i = false :=
        Nat.testBit_lt_two_pow (lt_of_lt_of_le (by norm_num) hpow)
      refine ⟨?_, ?_, ?_, ?_⟩ <;>
        simp [od_idle, od_press_ms, OUTPUT_PIN_BIT, Nat.testBit_land,
          Nat.testBit_lor, hOut, hDir, h254]
  · simp [od_press_ms, Nat.testBit_land, h2540]

theorem claim_C10_witness :
    (od_idle ⟨255, 255⟩).p1out.testBit 3 = Nat.testBit 255 3 ∧
    (od_press_ms 120 ⟨255, 255⟩).p1dir.testBit 3 = Nat.testBit 255 3 ∧
    (od_press_ms 120 ⟨255, 255⟩).p1dir.testBit 0 = false := by
  have h := claim_C10 ⟨255, 255⟩ 120 (by decide) (by decide)
  exact ⟨(h.1 3 (by decide)).1, (h.1 3 (by decide)).2.2.2, h.2⟩

/- ============ Claim C3 ============ -/

/-- Claim C3: a call of uvlo_periodic_check made while the state is
allowed (uvlo_active false): a sample below UVLO_FALL_MV flips the state
to blocked on that same call and changes nothing else, in particular no
confirmation counting happens; a sample at or above the fall threshold
leaves the whole state unchanged. -/
theorem claim_C3 (s : St) (h : s.uvlo_active = false) (mv : Nat) :
    (mv < UVLO_FALL_MV → uvlo_periodic_check mv s = { s with uvlo_active := true }) ∧
    (UVLO_FALL_MV ≤ mv → uvlo_periodic_check mv s = s) := by
  constructor
  · intro hmv; simp [uvlo_periodic_check, h, hmv]
  · intro hmv; simp [uvlo_periodic_check, h, Nat.not_lt.mpr hmv]

theorem claim_C3_witness :
    uvlo_periodic_check 2800 postBoot = { postBoot with uvlo_active := true } ∧
    uvlo_periodic_check 2900 postBoot = postBoot :=
  ⟨(claim_C3 postBoot rfl 2800).1 (by decide),
   (claim_C3 postBoot rfl 2900).2 (by decide)⟩

/- ============ Projection helper lemmas for the WDT phases ============ -/

lemma wdtDec_wdt (s : St) : (wdtDec s).wdt_ticks = s.wdt_ticks := rfl

lemma wdtCad_wdt (s : St) : (wdtCad s).wdt_ticks = s.wdt_ticks := by
  unfold wdtCad; dsimp only; split <;> rfl

lemma wdtCad_debounce (s : St) : (wdtCad s).debounce_ticks = s.debounce_ticks := by
  unfold wdtCad; dsimp only; split <;> rfl

lemma wdtAuto_debounce (s : St) : ((wdtAuto s).1).debounce_ticks = s.debounce_ticks := by
  unfold wdtAuto; dsimp only; split_ifs <;> rfl

lemma wdt_ticks_dec_cad (s : St) : (wdtCad (wdtDec s)).wdt_ticks = s.wdt_ticks := by
  rw [wdtCad_wdt, wdtDec_wdt]

lemma wdtDec_debounce_le (s : St) : (wdtDec s).debounce_ticks ≤ s.debounce_ticks := by
  unfold wdtDec; dsimp only; split <;> omega

/- ============ Concrete reachable states ============ -/

/-- The state one WDT tick before the first automatic pulse of the
nominal run: the auto-press counter is at TOGGLE_TICKS - 1, no inhibit,
no debounce, UVLO allowed. -/
def sC : St := ⟨115199, 0, 0, 0, false, false, 0⟩

/-- The state right after the automatic pulse out of sC. -/
def sCafter : St := ⟨0, 1, 0, 0, false, false, 0⟩

/-- A reachable blocked state with a nonzero auto-press counter. -/
def s7 : St := ⟨1, 2, 0, 0, true, false, 0⟩

lemma reachable_stepN (n : Nat) : Reachable (stepN n postBoot) := by
  induction n with
  | zero => exact Reachable.boot
  | succ n ih => exact Reachable.wdt ih

/-- One WDT interrupt in a free-running allowed state: no debounce, no
inhibit, check pending; the auto-press counter below the threshold
advances by one and the cadence counter advances modulo 8. -/
lemma WDT_ISR_free (w t : Nat) (hwlt : w + 1 < TOGGLE_TICKS) (ht : t < 8) :
    WDT_ISR ⟨w, t, 0, 0, false, true, 0⟩ =
      (⟨w + 1, (t + 1) % 8, 0, 0, false, true, 0⟩, []) := by
  have hU : (t + 1) % ULONG_MOD = t + 1 := Nat.mod_eq_of_lt (by unfold ULONG_MOD; omega)
  have hW : (w + 1) % ULONG_MOD = w + 1 := by
    apply Nat.mod_eq_of_lt
    unfold TOGGLE_TICKS at hwlt
    unfold ULONG_MOD
    omega
  have hT : ¬ TOGGLE_TICKS ≤ w + 1 := Nat.not_le_of_lt hwlt
  by_cases h7 : 8 ≤ t + 1
  · have h70 : (t + 1) % 8 = 0 := by omega
    simp only [WDT_ISR, wdtDec, wdtCad, wdtAuto, UVLO_CHECK_EVERY_TICKS]
    norm_num [hU, h7, hW, hT, h70]
  · have h71 : (t + 1) % 8 = t + 1 := by omega
    simp only [WDT_ISR, wdtDec, wdtCad, wdtAuto, UVLO_CHECK_EVERY_TICKS]
    norm_num [hU, h7, hW, hT, h71]

lemma stepN_formula : ∀ j, j ≤ 115198 →
    stepN (10 + j) postBoot = ⟨1 + j, (2 + j) % 8, 0, 0, false, true, 0⟩ := by
  intro j
  induction j with
  | zero => intro _; decide
  | succ j ih =>
    intro hj
    have hstep : stepN (10 + (j + 1)) postBoot = (WDT_ISR (stepN (10 + j) postBoot)).1 := rfl
    rw [hstep, ih (by omega)]
    rw [WDT_ISR_free (1 + j) ((2 + j) % 8) (by unfold TOGGLE_TICKS; omega)
      (Nat.mod_lt _ (by norm_num))]
    simp only [St.mk.injEq, and_true, true_and]
    omega

lemma reachable_sC : Reachable sC := by
  have h := reachable_stepN 115208
  have he : stepN 115208 postBoot = ⟨115199, 0, 0, 0, false, true, 0⟩ := by
    have h2 := stepN_formula 115198 (by norm_num)
    norm_num at h2
    exact h2
  rw [he] at h
  have h3 := Reachable.check 5000 h
  have he2 : mainCheck 5000 (⟨115199, 0, 0, 0, false, true, 0⟩ : St) = sC := by decide
  rwa [he2] at h3

lemma reachable_sCafter : Reachable sCafter := by
  have h := Reachable.wdt reachable_sC
  rwa [show (WDT_ISR sC).1 = sCafter from by decide] at h

lemma reachable_s7 : Reachable s7 := by
  have h := reachable_stepN 10
  rw [show stepN 10 postBoot = (⟨1, 2, 0, 0, false, true, 0⟩ : St) from by decide] at h
  have h2 := Reachable.check 2800 h
  rwa [show mainCheck 2800 (⟨1, 2, 0, 0, false, true, 0⟩ : St) = s7 from by decide] at h2

/- ============ Claim C1 ============ -/

/-- Claim C1: in every state reachable from the post-boot state under any
interleaving of WDT interrupts, button edges and main-loop check steps,
whenever a step invokes od_press_ms the program state at the invocation
point has uvlo_active false and inhibit_ticks zero.  For WDT_ISR the
invocation point lies after the unconditional counter decrements, i.e.
in state wdtCad (wdtDec s) (the order the code and spec section 4.4
prescribe); in PORT1_ISR neither variable is modified before the call.
Main-loop check steps never invoke od_press_ms. -/
theorem claim_C1 (s : St) (hr : Reachable s) :
    ((WDT_ISR s).2 ≠ [] →
      (wdtCad (wdtDec s)).uvlo_active = false ∧ (wdtCad (wdtDec s)).inhibit_ticks = 0) ∧
    (∀ e, (PORT1_ISR e s).2 ≠ [] →
      s.uvlo_active = false ∧ s.inhibit_ticks = 0) := by
  constructor
  · intro hp
    rcases Decidable.em ((wdtCad (wdtDec s)).uvlo_active = false ∧
        (wdtCad (wdtDec s)).inhibit_ticks = 0) with hg | hg
    · exact hg
    · exact absurd (by simp [WDT_ISR, wdtAuto, hg]) hp
  · intro e hp
    cases e with
    | false => simp [PORT1_ISR] at hp
    | true =>
      rcases Decidable.em (s.uvlo_active = false ∧ s.inhibit_ticks = 0) with hg | hg
      · exact hg
      · exfalso
        rcases Decidable.em (s.debounce_ticks = 0) with hd | hd
        · exact hp (by simp [PORT1_ISR, hd, hg])
        · exact hp (by simp [PORT1_ISR, hd])

theorem claim_C1_witness :
    ((wdtCad (wdtDec sC)).uvlo_active = false ∧ (wdtCad (wdtDec sC)).inhibit_ticks = 0) ∧
    (sCafter.uvlo_active = false ∧ sCafter.inhibit_ticks = 0) :=
  ⟨(claim_C1 sC reachable_sC).1 (by decide),
   (claim_C1 sCafter reachable_sCafter).2 true (by decide)⟩

/- ============ Claim C5 ============ -/

/-- Claim C5: behavior of a WDT interrupt step with respect to the
auto-press counter, the gating conditions being read at the auto-press
guard, which the code (and spec section 4.4) evaluates after the
unconditional debounce/inhibit decrements of the same tick.  When
uvlo_active is false and inhibit_ticks is zero there, wdt_ticks is
incremented (modulo the unsigned long width); on the step where the
incremented value reaches TOGGLE_TICKS it is reset to zero and exactly
one pulse of width PULSE_MS is emitted, otherwise no pulse is emitted;
when blocked or still inhibited at the guard, wdt_ticks is unchanged and
no pulse is emitted. -/
theorem claim_C5 (s : St) :
    ((wdtCad (wdtDec s)).uvlo_active = false → (wdtCad (wdtDec s)).inhibit_ticks = 0 →
      (TOGGLE_TICKS ≤ (s.wdt_ticks + 1) % ULONG_MOD →
        (WDT_ISR s).1.wdt_ticks = 0 ∧ (WDT_ISR s).2 = [PULSE_MS]) ∧
      ((s.wdt_ticks + 1) % ULONG_MOD < TOGGLE_TICKS →
        (WDT_ISR s).1.wdt_ticks = (s.wdt_ticks + 1) % ULONG_MOD ∧ (WDT_ISR s).2 = [])) ∧
    ((wdtCad (wdtDec s)).uvlo_active = true ∨ (wdtCad (wdtDec s)).inhibit_ticks ≠ 0 →
      (WDT_ISR s).1.wdt_ticks = s.wdt_ticks ∧ (WDT_ISR s).2 = []) := by
  have hk := wdt_ticks_dec_cad s
  constructor
  · intro hu hi
    constructor
    · intro ht
      simp [WDT_ISR, wdtAuto, hu, hi, hk, ht]
    · intro ht
      simp [WDT_ISR, wdtAuto, hu, hi, hk, Nat.not_le_of_lt ht]
  · intro hg
    have hng : ¬ ((wdtCad (wdtDec s)).uvlo_active = false ∧
        (wdtCad (wdtDec s)).inhibit_ticks = 0) := by
      intro hc
      rcases hg with h | h
      · rw [hc.1] at h; cases h
      · exact h hc.2
    simp [WDT_ISR, wdtAuto, hng, hk]

theorem claim_C5_witness :
    ((WDT_ISR sC).1.wdt_ticks = 0 ∧ (WDT_ISR sC).2 = [PULSE_MS]) ∧
    ((WDT_ISR postBoot).1.wdt_ticks = postBoot.wdt_ticks ∧ (WDT_ISR postBoot).2 = []) :=
  ⟨((claim_C5 sC).1 (by decide) (by decide)).1 (by decide),
   (claim_C5 postBoot).2 (Or.inr (by decide))⟩

/- ============ Claim C8 (corrected) ============ -/

/-- Claim C8, amended: wdt_ticks is the auto-press counter, not a
per-interrupt clock.  A WDT interrupt changes it only when uvlo_active is
false and inhibit_ticks is zero at the auto-press guard (after the
decrement phase of the same tick): it is then incremented modulo the
unsigned long width and reset to zero when the incremented value reaches
TOGGLE_TICKS; in every other case the interrupt leaves it unchanged.  A
button edge resets it to zero exactly when the press is gated through
(debounce zero, UVLO allowed, no inhibit) and otherwise leaves it
unchanged. -/
theorem claim_C8 (s : St) :
    (WDT_ISR s).1.wdt_ticks =
      (if (wdtCad (wdtDec s)).uvlo_active = false ∧ (wdtCad (wdtDec s)).inhibit_ticks = 0 then
        (if TOGGLE_TICKS ≤ (s.wdt_ticks + 1) % ULONG_MOD then 0
         else (s.wdt_ticks + 1) % ULONG_MOD)
      else s.wdt_ticks) ∧
    (PORT1_ISR true s).1.wdt_ticks =
      (if s.debounce_ticks = 0 ∧ s.uvlo_active = false ∧ s.inhibit_ticks = 0 then 0
       else s.wdt_ticks) := by
  have hk := wdt_ticks_dec_cad s
  constructor
  · by_cases hg : (wdtCad (wdtDec s)).uvlo_active = false ∧
        (wdtCad (wdtDec s)).inhibit_ticks = 0
    · by_cases ht : TOGGLE_TICKS ≤ (s.wdt_ticks + 1) % ULONG_MOD
      · simp [WDT_ISR, wdtAuto, hg, hk, ht]
      · simp [WDT_ISR, wdtAuto, hg, hk, ht]
    · simp [WDT_ISR, wdtAuto, hg, hk]
  · by_cases hd : s.debounce_ticks = 0
    · by_cases hg : s.uvlo_active = false ∧ s.inhibit_ticks = 0
      · simp [PORT1_ISR, hd, hg]
      · simp [PORT1_ISR, hd, hg]
    · simp [PORT1_ISR, hd]

/-- Counterexample to claim C8 as stated: the post-boot state is
reachable and still inhibited, and the WDT interrupt taken there leaves
wdt_ticks at 0 instead of incrementing it; moreover from the reachable
state sC (counter at 115199) one WDT interrupt resets the counter to 0,
a decrease not caused by wrap-around of the counter type. -/
theorem claim_C8_cex :
    (Reachable postBoot ∧ postBoot.wdt_ticks = 0 ∧ (WDT_ISR postBoot).1.wdt_ticks = 0) ∧
    (Reachable sC ∧ sC.wdt_ticks = 115199 ∧ (WDT_ISR sC).1.wdt_ticks = 0 ∧
      sC.wdt_ticks < ULONG_MOD - 1) :=
  ⟨⟨Reachable.boot, by decide, by decide⟩,
   ⟨reachable_sC, by decide, by decide, by decide⟩⟩

/- ============ Claim C6 (corrected) ============ -/

/-- Claim C6, amended: a button edge arriving while debounce_ticks is
positive — i.e. within DEBOUNCE_TICKS ticks of a prior honored manual
press, the only events that load the debounce counter — is completely
ignored: no pulse and no state change.  An edge arriving with
debounce_ticks zero unconditionally reloads debounce_ticks to
DEBOUNCE_TICKS, and emits a pulse exactly when uvlo_active is false and
inhibit_ticks is zero.  Automatic presses never raise the debounce
counter, so they do not open a debounce window. -/
theorem claim_C6 (s : St) :
    (0 < s.debounce_ticks → PORT1_ISR true s = (s, [])) ∧
    (s.debounce_ticks = 0 →
      (PORT1_ISR true s).1.debounce_ticks = DEBOUNCE_TICKS ∧
      ((PORT1_ISR true s).2 = [PULSE_MS] ↔ s.uvlo_active = false ∧ s.inhibit_ticks = 0)) ∧
    (WDT_ISR s).1.debounce_ticks ≤ s.debounce_ticks := by
  refine ⟨?_, ?_, ?_⟩
  · intro hd
    have hd0 : ¬ s.debounce_ticks = 0 := by omega
    simp [PORT1_ISR, hd0]
  · intro hd
    by_cases hg : s.uvlo_active = false ∧ s.inhibit_ticks = 0
    · constructor
      · simp [PORT1_ISR, hd, hg]
      · simp [PORT1_ISR, hd, hg]
    · constructor
      · simp [PORT1_ISR, hd, hg]
      · simp [PORT1_ISR, hd, hg]
  · calc (WDT_ISR s).1.debounce_ticks
        = (wdtCad (wdtDec s)).debounce_ticks := wdtAuto_debounce _
    _ = (wdtDec s).debounce_ticks := wdtCad_debounce _
    _ ≤ s.debounce_ticks := wdtDec_debounce_le s

/-- A state inside a debounce window (counter loaded by a prior honored
manual press). -/
def sD : St := ⟨0, 0, 1, 0, false, false, 0⟩

theorem claim_C6_witness :
    PORT1_ISR true sD = (sD, []) ∧
    (PORT1_ISR true postBoot).1.debounce_ticks = DEBOUNCE_TICKS :=
  ⟨(claim_C6 sD).1 (by decide), ((claim_C6 postBoot).2.1 (by decide)).1⟩

/-- Counterexample to claim C6 as stated: from the reachable state sC a
WDT interrupt emits an automatic pulse but leaves the debounce counter at
zero, so a button edge arriving immediately afterwards — zero ticks,
hence within DEBOUNCE_TICKS = 1 ticks, after that auto press — is honored
and emits a pulse instead of being ignored. -/
theorem claim_C6_cex :
    Reachable sC ∧ (WDT_ISR sC).2 = [PULSE_MS] ∧
    (WDT_ISR sC).1.debounce_ticks = 0 ∧
    (PORT1_ISR true (WDT_ISR sC).1).2 = [PULSE_MS] :=
  ⟨reachable_sC, by decide, by decide, by decide⟩

/- ============ Claim C7 (corrected) ============ -/

/-- Claim C7, amended: every button edge whose press is actually gated
through — debounce counter zero, uvlo_active false and inhibit_ticks
zero, i.e. exactly the edges that emit a pulse — resets the auto-press
counter wdt_ticks to zero.  An edge arriving with the debounce counter
at zero but blocked by UVLO or inhibit reloads the debounce window
without touching wdt_ticks. -/
theorem claim_C7 (s : St) (h : (PORT1_ISR true s).2 ≠ []) :
    (PORT1_ISR true s).1.wdt_ticks = 0 := by
  rcases Decidable.em (s.debounce_ticks = 0) with hd | hd
  · rcases Decidable.em (s.uvlo_active = false ∧ s.inhibit_ticks = 0) with hg | hg
    · simp [PORT1_ISR, hd, hg]
    · exact absurd (by simp [PORT1_ISR, hd, hg]) h
  · exact absurd (by simp [PORT1_ISR, hd]) h

/-- An allowed, uninhibited state with a nonzero auto-press counter. -/
def sM : St := ⟨5, 0, 0, 0, false, false, 0⟩

theorem claim_C7_witness : (PORT1_ISR true sM).1.wdt_ticks = 0 :=
  claim_C7 sM (by decide)

/-- Counterexample to claim C7 as stated: in the reachable blocked state
s7 the debounce counter is zero, so an arriving edge is honored in the
claim's sense — it reloads the debounce window — yet the auto-press
counter is left at 1, not reset to zero, because the UVLO gate blocks
the press branch that performs the reset. -/
theorem claim_C7_cex :
    Reachable s7 ∧ s7.debounce_ticks = 0 ∧
    (PORT1_ISR true s7).1.debounce_ticks = DEBOUNCE_TICKS ∧
    (PORT1_ISR true s7).1.wdt_ticks ≠ 0 :=
  ⟨reachable_s7, by decide, by decide, by decide⟩

/- ============ Confirmation-run characterization lemmas ============ -/

lemma okBump_small {c : Nat} (h : c < UVLO_CONFIRM_SAMPLES) : okBump c = c + 1 := by
  unfold UVLO_CONFIRM_SAMPLES at h
  unfold okBump UINT_MOD
  omega

lemma goodTake_succ_imp : ∀ (n : Nat) (l : List Nat),
    goodTake (n + 1) l = true → goodTake n l = true := by
  intro n
  induction n with
  | zero => intro l _; rfl
  | succ n ih =>
    intro l h
    cases l with
    | nil => simp [goodTake] at h
    | cons mv t =>
      simp only [goodTake, Bool.and_eq_true] at h ⊢
      exact ⟨h.1, ih t h.2⟩

lemma goodTake_confirm_hasRun : ∀ (l : List Nat),
    goodTake UVLO_CONFIRM_SAMPLES l = true → hasConfirmRun l = true := by
  intro l h
  cases l with
  | nil => simp [goodTake, UVLO_CONFIRM_SAMPLES] at h
  | cons mv t =>
    unfold hasConfirmRun
    rw [h]
    rfl


lemma runB_eq : ∀ (l : List Nat) (c : Nat), c < UVLO_CONFIRM_SAMPLES →
    runB c l = (goodTake (UVLO_CONFIRM_SAMPLES - c) l || hasConfirmRun l) := by
  intro l
  induction l with
  | nil =>
    intro c hc
    unfold UVLO_CONFIRM_SAMPLES at hc ⊢
    interval_cases c <;> simp [runB, goodTake, hasConfirmRun]
  | cons mv t ih =>
    intro c hc
    unfold UVLO_CONFIRM_SAMPLES at hc ⊢
    have hrunCons : ∀ d : Nat, runB d (mv :: t) =
        (if UVLO_RISE_MV ≤ mv then
          (if UVLO_CONFIRM_SAMPLES ≤ okBump d then true else runB (okBump d) t)
         else runB 0 t) := fun d => rfl
    have hconsRun : hasConfirmRun (mv :: t) =
        (goodTake 3 (mv :: t) || hasConfirmRun t) := rfl
    have hstep : ∀ kk : Nat, goodTake (kk + 1) (mv :: t) =
        (goodSample mv && goodTake kk t) := fun kk => rfl
    by_cases hmv : UVLO_RISE_MV ≤ mv
    · have hgs : goodSample mv = true := by simp [goodSample, hmv]
      interval_cases c
      · -- counter 0: no break, recurse with counter 1
        have hb : ¬ UVLO_CONFIRM_SAMPLES ≤ okBump 0 := by
          unfold UVLO_CONFIRM_SAMPLES okBump UINT_MOD; omega
        rw [hrunCons 0, if_pos hmv, if_neg hb]
        rw [show okBump 0 = 1 from rfl]
        rw [ih 1 (by unfold UVLO_CONFIRM_SAMPLES; omega)]
        rw [hconsRun]
        rw [show (3 : Nat) - 0 = 2 + 1 from rfl]
        rw [hstep 2]
        rw [show UVLO_CONFIRM_SAMPLES - 1 = 2 from rfl]
        rw [hgs]
        simp only [Bool.true_and]
        cases h2 : goodTake 2 t <;> simp
      · -- counter 1: no break, recurse with counter 2
        have hb : ¬ UVLO_CONFIRM_SAMPLES ≤ okBump 1 := by
          unfold UVLO_CONFIRM_SAMPLES okBump UINT_MOD; omega
        rw [hrunCons 1, if_pos hmv, if_neg hb]
        rw [show okBump 1 = 2 from rfl]
        rw [ih 2 (by unfold UVLO_CONFIRM_SAMPLES; omega)]
        rw [hconsRun]
        rw [show (3 : Nat) - 1 = 1 + 1 from rfl]
        rw [hstep 1]
        rw [hstep 2]
        rw [show UVLO_CONFIRM_SAMPLES - 2 = 1 from rfl]
        rw [hgs]
        simp only [Bool.true_and]
        cases h2 : goodTake 2 t with
        | true =>
          have h1 : goodTake 1 t = true := goodTake_succ_imp 1 t h2
          simp [h1]
        | false => simp
      · -- counter 2: break is reached
        have hb : UVLO_CONFIRM_SAMPLES ≤ okBump 2 := by
          unfold UVLO_CONFIRM_SAMPLES okBump UINT_MOD; omega
        rw [hrunCons 2, if_pos hmv, if_pos hb]
        rw [show (3 : Nat) - 2 = 0 + 1 from rfl]
        rw [hstep 0]
        rw [hgs]
        simp [goodTake]
    · have hgs : goodSample mv = false := by simp [goodSample, hmv]
      have hL : runB c (mv :: t) = runB 0 t := by rw [hrunCons c, if_neg hmv]
      have htail : runB 0 t = (goodTake 3 t || hasConfirmRun t) := by
        rw [ih 0 (by unfold UVLO_CONFIRM_SAMPLES; omega)]
        rw [show UVLO_CONFIRM_SAMPLES - 0 = 3 from rfl]
      have hfalse3 : goodTake 3 (mv :: t) = false := by
        rw [show (3 : Nat) = 2 + 1 from rfl, hstep 2, hgs]
        simp
      have hfin : (goodTake 3 t || hasConfirmRun t) =
          (goodTake (3 - c) (mv :: t) || hasConfirmRun (mv :: t)) := by
        rw [hconsRun, hfalse3]
        have hfalseC : goodTake (3 - c) (mv :: t) = false := by
          rw [show (3 : Nat) - c = (2 - c) + 1 from by omega]
          rw [hstep (2 - c), hgs]
          simp
        rw [hfalseC]
        cases h3 : goodTake 3 t with
        | true => rw [goodTake_confirm_hasRun t h3]; simp
        | false => simp
      rw [hL, htail, hfin]

lemma runB_zero (l : List Nat) : runB 0 l = hasConfirmRun l := by
  rw [runB_eq l 0 (by unfold UVLO_CONFIRM_SAMPLES; omega), Nat.sub_zero]
  cases hgt : goodTake UVLO_CONFIRM_SAMPLES l with
  | true => rw [goodTake_confirm_hasRun l hgt]; simp
  | false => simp

/- ============ Blocked-state sequence lemmas ============ -/

lemma uvloFold_nil (s : St) : uvloFold [] s = s := rfl

lemma uvloFold_cons (mv : Nat) (l : List Nat) (s : St) :
    uvloFold (mv :: l) s = uvloFold l (uvlo_periodic_check mv s) := rfl

lemma forall_take_cons {mv : Nat} {t : List Nat} {s : St} (h : s.uvlo_active = true) :
    (∀ n, (uvloFold ((mv :: t).take n) s).uvlo_active = true) ↔
    (∀ n, (uvloFold (t.take n) (uvlo_periodic_check mv s)).uvlo_active = true) := by
  constructor
  · intro H n
    have h2 := H (n + 1)
    rw [List.take_succ_cons, uvloFold_cons] at h2
    exact h2
  · intro H n
    cases n with
    | zero => rw [List.take_zero, uvloFold_nil]; exact h
    | succ n =>
      rw [List.take_succ_cons, uvloFold_cons]
      exact H n

lemma stayBlocked_iff : ∀ (l : List Nat) (s : St), s.uvlo_active = true →
    s.ok_count < UVLO_CONFIRM_SAMPLES →
    ((∀ n, (uvloFold (l.take n) s).uvlo_active = true) ↔ runB s.ok_count l = false) := by
  intro l
  induction l with
  | nil =>
    intro s hb _
    constructor
    · intro _; rfl
    · intro _ n
      simp only [List.take_nil, uvloFold_nil]
      exact hb
  | cons mv t ih =>
    intro s hb hc
    rw [forall_take_cons hb]
    by_cases hmv : UVLO_RISE_MV ≤ mv
    · by_cases hbreak : UVLO_CONFIRM_SAMPLES ≤ okBump s.ok_count
      · have hs : (uvlo_periodic_check mv s).uvlo_active = false := by
          simp [uvlo_periodic_check, hb, hmv, hbreak]
        have hrb : runB s.ok_count (mv :: t) = true := by
          simp [runB, hmv, hbreak]
        rw [hrb]
        constructor
        · intro H
          exfalso
          have h0 := H 0
          rw [List.take_zero, uvloFold_nil, hs] at h0
          exact Bool.false_ne_true h0
        · intro hcontra
          exact absurd hcontra (by simp)
      · have hs : (uvlo_periodic_check mv s).uvlo_active = true := by
          simp [uvlo_periodic_check, hb, hmv, hbreak]
        have hok : (uvlo_periodic_check mv s).ok_count = okBump s.ok_count := by
          simp [uvlo_periodic_check, hb, hmv, hbreak]
        have hlt : okBump s.ok_count < UVLO_CONFIRM_SAMPLES := by omega
        have ihx := ih (uvlo_periodic_check mv s) hs (by rw [hok]; exact hlt)
        rw [ihx, hok]
        have hrb : runB s.ok_count (mv :: t) = runB (okBump s.ok_count) t := by
          simp [runB, hmv, hbreak]
        rw [hrb]
    · have hs : (uvlo_periodic_check mv s).uvlo_active = true := by
        simp [uvlo_periodic_check, hb, hmv]
      have hok : (uvlo_periodic_check mv s).ok_count = 0 := by
        simp [uvlo_periodic_check, hb, hmv]
      have ihx := ih (uvlo_periodic_check mv s) hs (by
        rw [hok]; unfold UVLO_CONFIRM_SAMPLES; omega)
      rw [ihx, hok]
      have hrb : runB s.ok_count (mv :: t) = runB 0 t := by
        simp [runB, hmv]
      rw [hrb]

/- ============ Claim C2 ============ -/

/-- Claim C2: starting blocked with confirmation counter zero, the gate
stays blocked over every prefix of the sample sequence exactly when the
sequence contains no run of UVLO_CONFIRM_SAMPLES consecutive samples at
or above UVLO_RISE_MV — so the transition to allowed happens exactly at
the end of the first such run; moreover, while blocked, any sample below
the rise threshold resets the confirmation counter to zero and keeps the
gate blocked, and whenever a check call leaves the blocked state, that
call resets the confirmation counter to zero and loads inhibit_ticks
with STARTUP_INHIBIT_TICKS. -/
theorem claim_C2 (s : St) (hb : s.uvlo_active = true) (h0 : s.ok_count = 0)
    (l : List Nat) (mv : Nat) (t : St) :
    ((∀ n, (uvloFold (l.take n) s).uvlo_active = true) ↔ hasConfirmRun l = false) ∧
    (t.uvlo_active = true → mv < UVLO_RISE_MV →
      uvlo_periodic_check mv t = { t with ok_count := 0 }) ∧
    (t.uvlo_active = true → (uvlo_periodic_check mv t).uvlo_active = false →
      uvlo_periodic_check mv t =
        { t with uvlo_active := false, ok_count := 0,
                 inhibit_ticks := STARTUP_INHIBIT_TICKS }) := by
  refine ⟨?_, ?_, ?_⟩
  · have h := stayBlocked_iff l s hb (by rw [h0]; unfold UVLO_CONFIRM_SAMPLES; omega)
    rw [h, h0, runB_zero]
  · intro ht hmv
    simp [uvlo_periodic_check, ht, Nat.not_le_of_lt hmv]
  · intro ht hres
    by_cases hmv2 : UVLO_RISE_MV ≤ mv
    · by_cases hbr : UVLO_CONFIRM_SAMPLES ≤ okBump t.ok_count
      · simp [uvlo_periodic_check, ht, hmv2, hbr]
      · exfalso
        have hx : (uvlo_periodic_check mv t).uvlo_active = true := by
          simp [uvlo_periodic_check, ht, hmv2, hbr]
        rw [hx] at hres
        simp at hres
    · exfalso
      have hx : (uvlo_periodic_check mv t).uvlo_active = true := by
        simp [uvlo_periodic_check, ht, hmv2]
      rw [hx] at hres
      simp at hres

/-- A blocked state with confirmation counter zero. -/
def B0 : St := ⟨0, 0, 0, 0, true, false, 0⟩

/-- A blocked state with confirmation counter two, one good sample away
from the allowed transition. -/
def B2 : St := ⟨0, 0, 0, 0, true, false, 2⟩

theorem claim_C2_witness :
    uvlo_periodic_check 2500 B0 = { B0 with ok_count := 0 } ∧
    uvlo_periodic_check 3000 B2 =
      { B2 with uvlo_active := false, ok_count := 0,
                inhibit_ticks := STARTUP_INHIBIT_TICKS } :=
  ⟨(claim_C2 B0 rfl rfl [] 2500 B0).2.1 rfl (by decide),
   (claim_C2 B0 rfl rfl [] 3000 B2).2.2 rfl (by decide)⟩

/- ============ wait_for_power_good lemmas ============ -/

lemma wfpgRun_eq_runB (f : Nat → Nat) : ∀ (n i c : Nat),
    wfpgRun f n i c = runB c (sampleList f i n) := by
  intro n
  induction n with
  | zero => intro i c; rfl
  | succ n ih =>
    intro i c
    have hL : wfpgRun f (n + 1) i c =
        (if UVLO_RISE_MV ≤ f i then
          (if UVLO_CONFIRM_SAMPLES ≤ okBump c then true
           else wfpgRun f n (i + 1) (okBump c))
         else wfpgRun f n (i + 1) 0) := rfl
    have hR : runB c (sampleList f i (n + 1)) =
        (if UVLO_RISE_MV ≤ f i then
          (if UVLO_CONFIRM_SAMPLES ≤ okBump c then true
           else runB (okBump c) (sampleList f (i + 1) n))
         else runB 0 (sampleList f (i + 1) n)) := rfl
    rw [hL, hR, ih (i + 1) (okBump c), ih (i + 1) 0]

lemma hasRun_sampleList_imp (f : Nat → Nat) : ∀ (n i : Nat),
    hasConfirmRun (sampleList f i n) = true →
    ∃ j, UVLO_RISE_MV ≤ f j ∧ UVLO_RISE_MV ≤ f (j + 1) ∧ UVLO_RISE_MV ≤ f (j + 2) := by
  intro n
  induction n with
  | zero =>
    intro i h
    rw [show sampleList f i 0 = [] from rfl] at h
    exact absurd h (by decide)
  | succ n ih =>
    intro i h
    have he : hasConfirmRun (sampleList f i (n + 1)) =
        (goodTake UVLO_CONFIRM_SAMPLES (sampleList f i (n + 1)) ||
         hasConfirmRun (sampleList f (i + 1) n)) := rfl
    rw [he, Bool.or_eq_true] at h
    rcases h with h1 | h2
    · rcases n with _ | _ | m
      · rw [show goodTake UVLO_CONFIRM_SAMPLES (sampleList f i 1) =
          (goodSample (f i) && false) from rfl] at h1
        simp at h1
      · rw [show goodTake UVLO_CONFIRM_SAMPLES (sampleList f i 2) =
          (goodSample (f i) && (goodSample (f (i + 1)) && false)) from rfl] at h1
        simp at h1
      · rw [show goodTake UVLO_CONFIRM_SAMPLES (sampleList f i (m + 3)) =
          (goodSample (f i) && (goodSample (f (i + 1)) && (goodSample (f (i + 2)) &&
            goodTake 0 (sampleList f (i + 3) m)))) from rfl] at h1
        simp only [goodTake, goodSample, Bool.and_true, Bool.and_eq_true,
          decide_eq_true_eq] at h1
        exact ⟨i, h1.1, h1.2.1, h1.2.2⟩
    · exact ih (i + 1) h2

lemma hasRun_sampleList_of (f : Nat → Nat) : ∀ (k i : Nat),
    UVLO_RISE_MV ≤ f (i + k) → UVLO_RISE_MV ≤ f (i + k + 1) → UVLO_RISE_MV ≤ f (i + k + 2) →
    hasConfirmRun (sampleList f i (k + 3)) = true := by
  intro k
  induction k with
  | zero =>
    intro i h0 h1 h2
    simp only [Nat.add_zero] at h0 h1 h2
    have he : hasConfirmRun (sampleList f i 3) =
        (goodSample (f i) && (goodSample (f (i + 1)) && (goodSample (f (i + 2)) &&
          goodTake 0 (sampleList f (i + 3) 0))) || hasConfirmRun (sampleList f (i + 1) 2)) := rfl
    rw [he]
    simp [goodSample, goodTake, h0, h1, h2]
  | succ k ih =>
    intro i h0 h1 h2
    have e0 : i + 1 + k = i + (k + 1) := by omega
    have e1 : i + 1 + k + 1 = i + (k + 1) + 1 := by omega
    have e2 : i + 1 + k + 2 = i + (k + 1) + 2 := by omega
    have hx := ih (i + 1) (by rw [e0]; exact h0) (by rw [e1]; exact h1) (by rw [e2]; exact h2)
    have he : hasConfirmRun (sampleList f i (k + 1 + 3)) =
        (goodTake UVLO_CONFIRM_SAMPLES (sampleList f i (k + 1 + 3)) ||
         hasConfirmRun (sampleList f (i + 1) (k + 3))) := rfl
    rw [he, hx]
    simp

/- ============ Claim C4 ============ -/

/-- Claim C4: wait_for_power_good terminates on a sample stream exactly
when the stream contains UVLO_CONFIRM_SAMPLES consecutive samples at or
above UVLO_RISE_MV (three consecutive stream positions meeting the rise
threshold); in particular a supply that stays below the rise threshold
forever makes the boot gate loop forever — there is no timeout path. -/
theorem claim_C4 (f : Nat → Nat) :
    (wfpg_terminates f ↔
      ∃ i, UVLO_RISE_MV ≤ f i ∧ UVLO_RISE_MV ≤ f (i + 1) ∧ UVLO_RISE_MV ≤ f (i + 2)) ∧
    ((∀ i, f i < UVLO_RISE_MV) → ¬ wfpg_terminates f) := by
  have hiff : wfpg_terminates f ↔
      ∃ i, UVLO_RISE_MV ≤ f i ∧ UVLO_RISE_MV ≤ f (i + 1) ∧ UVLO_RISE_MV ≤ f (i + 2) := by
    constructor
    · rintro ⟨n, hn⟩
      rw [wfpgRun_eq_runB, runB_zero] at hn
      exact hasRun_sampleList_imp f n 0 hn
    · rintro ⟨i, h0, h1, h2⟩
      refine ⟨i + 3, ?_⟩
      rw [wfpgRun_eq_runB, runB_zero]
      have hx := hasRun_sampleList_of f i 0 (by simpa using h0) (by simpa using h1)
        (by simpa using h2)
      exact hx
  refine ⟨hiff, ?_⟩
  intro hlow ht
  rcases hiff.mp ht with ⟨i, h0, _, _⟩
  exact absurd h0 (Nat.not_le_of_lt (hlow i))

theorem claim_C4_witness :
    wfpg_terminates (fun _ => 3300) ∧ ¬ wfpg_terminates (fun _ => 0) :=
  ⟨(claim_C4 (fun _ => 3300)).1.mpr ⟨0, by decide, by decide, by decide⟩,
   (claim_C4 (fun _ => 0)).2 (fun i => by decide)⟩
